import Mathlib

/-!
Verification of `wren-core-py/src/context.rs` (the Wren engine Python
session-context facade): the SQL limit-pushdown rewriter, the session
construction pipeline, the remote-function catalog loading, and the
catalog merge of `get_available_functions`.

External collaborators (the SQL parser/serializer, the CSV reader, the
manifest decoder/analyzer, the engine type mapper and engine session
construction) are passed in as explicit function arguments ("oracles"),
so theorems quantify over every possible behaviour of those
collaborators; the logic of `context.rs` itself is embedded directly.
-/

namespace Wren

/-! ### SQL AST fragment

Shallow embedding of the parts of the `sqlparser` AST that
`pushdown_limit` inspects: a `Value::Number(text, long)` literal, other
expressions, a `Query` carrying an optional `LIMIT` expression plus the
query blocks nested inside its body (derived tables, subquery
expressions, set-operation arms — none of which are `Statement` nodes),
and a `Statement`, which is either a query, a statement that wraps
another statement (e.g. `EXPLAIN`), or something else.

`visit_statements_mut` (the traversal used at context.rs:210) calls its
closure on every `Statement` node reachable from the statement list; a
`Query` nested inside a query body is not a `Statement` node and is not
visited (the sqlparser documentation's own example for this API reads
"Remove all select limits in outer statements (not in sub-queries)").
-/

inductive Value where
  | number (n : String) (long : Bool)
  | otherValue (s : String)

inductive Expr where
  | value (v : Value)
  | otherExpr (s : String)

inductive Query where
  | mk (limit : Option Expr) (subqueries : List Query)

inductive Statement where
  | query (q : Query)
  | explain (inner : Statement)
  | otherStmt (s : String)

def Query.limit : Query → Option Expr
  | .mk l _ => l

def Query.subqueries : Query → List Query
  | .mk _ s => s

def Query.setLimit : Query → Option Expr → Query
  | .mk _ subs, l => .mk l subs

def Statement.queryOf : Statement → Option Query
  | .query q => some q
  | _ => none

/-! ### Rust `str::parse::<usize>` -/

/-- `usize::MAX` on a 64-bit target. -/
def USIZE_MAX : Nat := 2 ^ 64 - 1

/-- Models Rust `n.parse::<usize>()` on the digit strings the SQL
tokenizer produces for `Value::Number` (digits, possibly with a decimal
point or exponent; never a sign). The parse succeeds exactly on a
non-empty all-digit string whose value fits in `usize`; on anything
else (`"1.5"`, `"1e3"`, or an out-of-range integer) it fails, which the
source turns into a panic via `.unwrap()` at context.rs:214. -/
def rustParseUsize (s : String) : Option Nat :=
  if s.data ≠ [] ∧ s.data.all Char.isDigit = true then
    let n := s.data.foldl (fun acc c => acc * 10 + (c.toNat - 48)) 0
    if n ≤ USIZE_MAX then some n else none
  else none

/-! ### The limit-pushdown rewrite (context.rs:199-229) -/

/-- The body of the closure passed to `visit_statements_mut`
(context.rs:211-225), applied to one `Statement::Query` node `q`.
`none` models a panic of `n.parse::<usize>().unwrap()`. -/
def capQueryLimit (pushdown : Nat) (q : Query) : Option Query :=
  match q.limit with
  | some lim =>
    match lim with
    | .value (.number n long) =>
      match rustParseUsize n with
      | some l =>
        if l > pushdown then
          some (q.setLimit (some (.value (.number (toString pushdown) long))))
        else
          some q
      | none => none
    | _ => some q
  | none => some (q.setLimit (some (.value (.number (toString pushdown) false))))

/-- `visit_statements_mut` applied to one statement with the closure of
context.rs:210-227: every `Statement` node of the tree is visited; the
closure rewrites the limit of `Statement::Query` nodes and leaves every
other statement alone. `none` models a panic inside the closure. -/
def visitStmtMut (pushdown : Nat) : Statement → Option Statement
  | .query q => (capQueryLimit pushdown q).map Statement.query
  | .explain inner => (visitStmtMut pushdown inner).map Statement.explain
  | .otherStmt s => some (.otherStmt s)

/-- `PySessionContext::pushdown_limit` (context.rs:199-229).
`parse` stands for `wren_core::parser::Parser::parse_sql` under the
generic dialect and `serialize` for `Statement::to_string`. The outer
`Option` models panic (`none`), the inner `Except` models `PyResult`.
With `limit = None` the input string is returned as is, before any
parsing; otherwise the input must parse to exactly one statement, the
statement is rewritten in place, and `statements[0]` is re-serialized. -/
def pushdown_limit (parse : String → Except String (List Statement))
    (serialize : Statement → String)
    (sql : String) (limit : Option Nat) : Option (Except String String) :=
  match limit with
  | none => some (.ok sql)
  | some pushdown =>
    match parse sql with
    | .error e => some (.error e)
    | .ok statements =>
      match statements with
      | [stmt] => (visitStmtMut pushdown stmt).map (fun s => .ok (serialize s))
      | _ => some (.error "Only one statement is allowed")

/-! ### Helper lemmas for the rewrite pass -/

lemma capQueryLimit_subqueries (C : Nat) (q q' : Query)
    (h : capQueryLimit C q = some q') : q'.subqueries = q.subqueries := by
  obtain ⟨lim, subs⟩ := q
  unfold capQueryLimit at h
  cases lim with
  | none =>
    simp only [Query.limit, Query.setLimit, Option.some.injEq] at h
    subst h; rfl
  | some e =>
    cases e with
    | value v =>
      cases v with
      | number n long =>
        simp only [Query.limit] at h
        cases hn : rustParseUsize n with
        | none => rw [hn] at h; cases h
        | some l =>
          rw [hn] at h
          dsimp only at h
          by_cases hC : l > C
          · rw [if_pos hC] at h
            simp only [Query.setLimit, Option.some.injEq] at h
            subst h; rfl
          · rw [if_neg hC] at h
            simp only [Option.some.injEq] at h
            subst h; rfl
      | otherValue s =>
        simp only [Query.limit, Option.some.injEq] at h
        subst h; rfl
    | otherExpr s =>
      simp only [Query.limit, Option.some.injEq] at h
      subst h; rfl

/-! ### Claim theorems about the limit-pushdown rewriter -/

/-- C1: for SQL parsing to exactly one statement (a query `q`) and any
ceiling `C`, `pushdown_limit` rewrites the visited query node exactly
as specified: a numeric `LIMIT` literal parsing to `L > C` is replaced
by `C` (keeping the `long` flag), so the result carries
`LIMIT min(L, C)`; a literal with `L ≤ C` is left unchanged; a query
with no `LIMIT` gets `LIMIT C` injected; a non-literal `LIMIT`
expression is left untouched. -/
theorem pushdown_limit_caps_each_visited_query
    (parse : String → Except String (List Statement))
    (serialize : Statement → String)
    (sql : String) (C : Nat) (q : Query)
    (hp : parse sql = .ok [Statement.query q]) :
    (∀ n long L, q.limit = some (.value (.number n long)) →
      rustParseUsize n = some L →
      pushdown_limit parse serialize sql (some C) =
        some (.ok (serialize (.query
          (if L > C then
            q.setLimit (some (.value (.number (toString C) long)))
          else q)))))
  ∧ (q.limit = none →
      pushdown_limit parse serialize sql (some C) =
        some (.ok (serialize (.query
          (q.setLimit (some (.value (.number (toString C) false))))))))
  ∧ (∀ e, q.limit = some e → (∀ n long, e ≠ .value (.number n long)) →
      pushdown_limit parse serialize sql (some C) =
        some (.ok (serialize (.query q)))) := by
  refine ⟨?_, ?_, ?_⟩
  · intro n long L hl hn
    by_cases hC : L > C <;>
      simp [pushdown_limit, hp, visitStmtMut, capQueryLimit, hl, hn, hC]
  · intro hl
    simp [pushdown_limit, hp, visitStmtMut, capQueryLimit, hl]
  · intro e hl hne
    cases e with
    | value v =>
      cases v with
      | number n long => exact absurd rfl (hne n long)
      | otherValue s =>
        simp [pushdown_limit, hp, visitStmtMut, capQueryLimit, hl]
    | otherExpr s =>
      simp [pushdown_limit, hp, visitStmtMut, capQueryLimit, hl]

def q500 : Query := .mk (some (.value (.number "500" false))) []

def parse500 : String → Except String (List Statement) := fun _ => .ok [.query q500]

def ser0 : Statement → String := fun _ => "sql"

/-- Witness for C1, on `SELECT * FROM t LIMIT 500` with ceiling 100. -/
theorem pushdown_limit_caps_each_visited_query_witness :
    pushdown_limit parse500 ser0 "SELECT * FROM t LIMIT 500" (some 100) =
      some (.ok (ser0 (.query
        (if 500 > 100 then
          q500.setLimit (some (.value (.number (toString 100) false)))
        else q500)))) :=
  (pushdown_limit_caps_each_visited_query parse500 ser0
    "SELECT * FROM t LIMIT 500" 100 q500 rfl).1 "500" false 500 rfl (by decide)

/-- C5: with no ceiling, `pushdown_limit` succeeds and returns the
input string itself, for every input and regardless of what the parser
would do with it (the statement quantifies over every `parse` and
`serialize`, so neither is consulted). -/
theorem pushdown_limit_none_returns_input
    (parse : String → Except String (List Statement))
    (serialize : Statement → String) (sql : String) :
    pushdown_limit parse serialize sql none = some (.ok sql) := rfl

/-- C6: with a ceiling, `pushdown_limit` returns an error whenever the
parse yields a number of statements different from one (zero, two or
more), and propagates the parser's error when the SQL does not parse
at all. -/
theorem pushdown_limit_rejects_non_single_statement
    (parse : String → Except String (List Statement))
    (serialize : Statement → String) (sql : String) (C : Nat) :
    (∀ stmts, parse sql = .ok stmts → stmts.length ≠ 1 →
      pushdown_limit parse serialize sql (some C) =
        some (.error "Only one statement is allowed"))
  ∧ (∀ e, parse sql = .error e →
      pushdown_limit parse serialize sql (some C) = some (.error e)) := by
  constructor
  · intro stmts hps hlen
    match stmts, hlen with
    | [], _ => simp [pushdown_limit, hps]
    | [s], h => exact absurd rfl h
    | s1 :: s2 :: rest, _ => simp [pushdown_limit, hps]
  · intro e hps
    simp [pushdown_limit, hps]

def parseTwo : String → Except String (List Statement) := fun _ =>
  .ok [.otherStmt "SELECT 1", .otherStmt "SELECT 2"]

/-- Witness for C6, on a two-statement input. -/
theorem pushdown_limit_rejects_non_single_statement_witness :
    pushdown_limit parseTwo ser0 "SELECT 1; SELECT 2" (some 5) =
      some (.error "Only one statement is allowed") :=
  (pushdown_limit_rejects_non_single_statement parseTwo ser0
    "SELECT 1; SELECT 2" 5).1 _ rfl (by decide)

/-- C9: `pushdown_limit` panics (modelled as `none`) whenever the
visited query's `LIMIT` is a numeric literal that `parse::<usize>`
cannot convert — in particular an integer too large for `usize` — for
every ceiling, instead of returning an error or leaving the limit
untouched. -/
theorem pushdown_limit_panics_on_unparseable_limit
    (parse : String → Except String (List Statement))
    (serialize : Statement → String)
    (sql : String) (C : Nat) (q : Query) (n : String) (long : Bool)
    (hp : parse sql = .ok [Statement.query q])
    (hl : q.limit = some (.value (.number n long)))
    (hn : rustParseUsize n = none) :
    pushdown_limit parse serialize sql (some C) = none := by
  simp [pushdown_limit, hp, visitStmtMut, capQueryLimit, hl, hn]

def qHuge : Query := .mk (some (.value (.number "99999999999999999999999" false))) []

def parseHuge : String → Except String (List Statement) := fun _ => .ok [.query qHuge]

/-- Witness for C9: `LIMIT 99999999999999999999999` does not fit in a
64-bit `usize`, so the rewrite panics for ceiling 100. -/
theorem pushdown_limit_panics_on_unparseable_limit_witness :
    pushdown_limit parseHuge ser0
      "SELECT * FROM t LIMIT 99999999999999999999999" (some 100) = none :=
  pushdown_limit_panics_on_unparseable_limit parseHuge ser0
    "SELECT * FROM t LIMIT 99999999999999999999999" 100 qHuge
    "99999999999999999999999" false rfl rfl (by decide)

/-- Serializer oracle that reports the `LIMIT` of the top-level query
and of each of its direct subqueries. -/
def limitLit : Option Expr → String
  | none => "none"
  | some (.value (.number n _)) => n
  | some _ => "expr"

def serLimits : Statement → String
  | .query (.mk l subs) =>
    String.intercalate "," (limitLit l :: subs.map (fun q => limitLit q.limit))
  | _ => "other"

def stmtNested : Statement := .query (.mk none [.mk none []])

def parseNested : String → Except String (List Statement) := fun _ => .ok [stmtNested]

/-- Counterexample to C2: on a statement whose query contains a nested
subquery, with ceiling 10, the rewrite injects `LIMIT 10` only into the
outermost query block; the nested subquery, which previously had no
`LIMIT`, still has none afterwards — refuting "every query block that
previously had no LIMIT has LIMIT C". -/
theorem pushdown_limit_subquery_uncapped_cex :
    pushdown_limit parseNested serLimits
      "SELECT * FROM (SELECT * FROM t)" (some 10) = some (.ok "10,none")
  ∧ visitStmtMut 10 stmtNested =
      some (.query (.mk (some (.value (.number "10" false))) [.mk none []]))
  ∧ visitStmtMut 10 stmtNested ≠
      some (.query (.mk (some (.value (.number "10" false)))
        [.mk (some (.value (.number "10" false))) []])) := by
  refine ⟨rfl, rfl, ?_⟩
  intro h
  rw [show visitStmtMut 10 stmtNested =
      some (.query (.mk (some (.value (.number "10" false))) [.mk none []]))
    from rfl] at h
  simp at h

/-- C2 amended: the rewrite pass of `pushdown_limit` caps only the
query nodes visited by the statement-level traversal: the query of a
`Statement::Query` node with no `LIMIT` gets `LIMIT C` injected, but
the query blocks nested inside its body (subqueries) are returned
exactly as they were — the traversal never rewrites them. -/
theorem pushdown_limit_caps_statement_level_only (C : Nat) (q : Query) :
    (q.limit = none →
      visitStmtMut C (.query q) =
        some (.query (.mk (some (.value (.number (toString C) false)))
          q.subqueries)))
  ∧ (∀ s, visitStmtMut C (.query q) = some s →
      s.queryOf.map Query.subqueries = some q.subqueries)
  ∧ (∀ parse serialize sql, parse sql = .ok [Statement.query q] →
      pushdown_limit parse serialize sql (some C) =
        (visitStmtMut C (.query q)).map (fun s => .ok (serialize s))) := by
  refine ⟨?_, ?_, ?_⟩
  · intro hl
    obtain ⟨lim, subs⟩ := q
    simp only [Query.limit] at hl
    subst hl
    simp [visitStmtMut, capQueryLimit, Query.limit, Query.setLimit,
      Query.subqueries]
  · intro s hs
    simp only [visitStmtMut, Option.map_eq_some'] at hs
    obtain ⟨q', hq', rfl⟩ := hs
    simp [Statement.queryOf, capQueryLimit_subqueries C q q' hq']
  · intro parse serialize sql hp
    simp [pushdown_limit, hp]

def qSub : Query := .mk none [.mk none []]

/-- Witness for the amended C2: ceiling 10 on a limitless query with a
limitless subquery caps the outer block and keeps the subquery list. -/
theorem pushdown_limit_caps_statement_level_only_witness :
    visitStmtMut 10 (.query qSub) =
      some (.query (.mk (some (.value (.number (toString 10) false)))
        qSub.subqueries)) :=
  (pushdown_limit_caps_statement_level_only 10 qSub).1 rfl

/-! ### Remote functions and the session context

`wren_core::mdl::function::RemoteFunction` and
`crate::remote_functions::PyRemoteFunction` live in parts of the
repository outside the file under verification. -/

inductive FunctionType where
  | scalar
  | aggregate
  | window

/-- Modelled from the spec: `RemoteFunction` (§3) — the wren-core form
of a remote function, `{ name, function_type: enum{Scalar, Aggregate,
Window}, return_type: type-descriptor, param_names/param_types/
description: optional }`; type descriptors are strings. -/
structure RemoteFunction where
  function_type : FunctionType
  name : String
  return_type : String
  param_names : Option (List String)
  param_types : Option (List String)
  description : Option String

/-- Modelled from the spec: `FunctionCatalogEntry` (§3) and the CSV row
shape (§6) — the introspection/CSV form in `crate::remote_functions`,
whose return/param/description fields may all be unknown. -/
structure PyRemoteFunction where
  function_type : String
  name : String
  return_type : Option String
  param_names : Option (List String)
  param_types : Option (List String)
  description : Option String

def FunctionType.asString : FunctionType → String
  | .scalar => "scalar"
  | .aggregate => "aggregate"
  | .window => "window"

/-- Modelled from the spec: the `From<RemoteFunction>` projection used
by `get_available_functions` (§4.4) — remote-catalog entries keep all
their metadata, so every optional field is populated from the catalog
entry. -/
def RemoteFunction.toPy (f : RemoteFunction) : PyRemoteFunction :=
  { function_type := f.function_type.asString
    name := f.name
    return_type := some f.return_type
    param_names := f.param_names
    param_types := f.param_types
    description := f.description }

/-- An engine-native data type produced by `map_data_type`; its
contents are irrelevant to the claims. -/
structure DataType where
  typeName : String

/-- Opaque decoded manifest. -/
structure Manifest where
  tag : Nat

/-- Opaque analyzed model. -/
structure AnalyzedWrenMDL where
  tag : Nat

/-- The engine session, projected to what the source observes of it:
the names registered per function kind (`register_udf` /
`register_udaf` / `register_udwf` insert into per-kind name-keyed
maps, and `scalar_functions()` etc. enumerate them). -/
structure Ctx where
  scalar_udfs : List String
  aggregate_udfs : List String
  window_udfs : List String

/-- Name-keyed insertion into one kind map of the engine session
(registering an already-present name replaces its implementation and
leaves the name set unchanged). -/
def registerName (l : List String) (n : String) : List String :=
  if n ∈ l then l else l ++ [n]

def Ctx.kindList (c : Ctx) : FunctionType → List String
  | .scalar => c.scalar_udfs
  | .aggregate => c.aggregate_udfs
  | .window => c.window_udfs

/-- `f` is registered in the engine session as a callable of its
declared kind. -/
def Ctx.hasRegistered (c : Ctx) (f : RemoteFunction) : Prop :=
  f.name ∈ c.kindList f.function_type

/-- `PySessionContext::register_remote_function` (context.rs:233-261):
map the declared return type into the engine type system (failure is
an error), then register a pass-through callable of the declared kind
under the function's name. -/
def register_remote_function (map_data_type : String → Except String DataType)
    (ctx : Ctx) (f : RemoteFunction) : Except String Ctx :=
  match f.function_type with
  | .scalar =>
    match map_data_type f.return_type with
    | .error e => .error e
    | .ok _ => .ok { ctx with scalar_udfs := registerName ctx.scalar_udfs f.name }
  | .aggregate =>
    match map_data_type f.return_type with
    | .error e => .error e
    | .ok _ => .ok { ctx with aggregate_udfs := registerName ctx.aggregate_udfs f.name }
  | .window =>
    match map_data_type f.return_type with
    | .error e => .error e
    | .ok _ => .ok { ctx with window_udfs := registerName ctx.window_udfs f.name }

/-- The `try_for_each` registration loop of context.rs:105-109:
register each remote function in order, aborting on the first error. -/
def registerAll (map_data_type : String → Except String DataType) :
    Ctx → List RemoteFunction → Except String Ctx
  | ctx, [] => .ok ctx
  | ctx, f :: fs =>
    match register_remote_function map_data_type ctx f with
    | .error e => .error e
    | .ok ctx' => registerAll map_data_type ctx' fs

/-- `PySessionContext::read_remote_function_list` (context.rs:263-277).
`openCsv` stands for `csv::Reader::from_path(..).into_deserialize()`:
it either fails to open the file (`.error`) or yields one
deserialization result per row; `filter_map(Result::ok)` keeps exactly
the well-formed rows. An absent path yields an empty list. -/
def read_remote_function_list
    (openCsv : String → Except String (List (Except String PyRemoteFunction))) :
    Option String → Except String (List PyRemoteFunction)
  | some path =>
    match openCsv path with
    | .error e => .error e
    | .ok rows => .ok (rows.filterMap Except.toOption)
  | none => .ok []

/-- The session-context facade: engine session, analyzed model,
remote-function list. -/
structure PySessionContext where
  ctx : Ctx
  mdl : AnalyzedWrenMDL
  remote_functions : List RemoteFunction

/-- `PySessionContext::new` (context.rs:71-116). Oracles: `openCsv`
(CSV file access), `intoRemote` (the `From<PyRemoteFunction>`
conversion in `crate::remote_functions`), `to_manifest` (base64 +
JSON decoding in `crate::manifest`), `analyze`
(`AnalyzedWrenMDL::analyze`), `create_ctx_with_mdl` (the async
engine-session construction, whose one-shot runtime is modelled as
always available), `map_data_type`, `ctx0` (the fresh engine session
with its built-in functions) and `defaultMdl`
(`AnalyzedWrenMDL::default()`). Mirrors the source's control flow: CSV
read first, then the early return when no manifest is supplied, then
decode → analyze → create-with-model → register each remote
function. -/
def PySessionContext.new
    (openCsv : String → Except String (List (Except String PyRemoteFunction)))
    (intoRemote : PyRemoteFunction → RemoteFunction)
    (to_manifest : String → Except String Manifest)
    (analyze : Manifest → Except String AnalyzedWrenMDL)
    (create_ctx_with_mdl : Ctx → AnalyzedWrenMDL → Except String Ctx)
    (map_data_type : String → Except String DataType)
    (ctx0 : Ctx) (defaultMdl : AnalyzedWrenMDL)
    (mdl_base64 : Option String) (remote_functions_path : Option String) :
    Except String PySessionContext :=
  match read_remote_function_list openCsv remote_functions_path with
  | .error e => .error e
  | .ok pyfs =>
    let remote_functions := pyfs.map intoRemote
    match mdl_base64 with
    | none => .ok ⟨ctx0, defaultMdl, remote_functions⟩
    | some b64 =>
      match to_manifest b64 with
      | .error e => .error e
      | .ok manifest =>
        match analyze manifest with
        | .error _ => .error "Failed to analyze manifest"
        | .ok analyzed =>
          match create_ctx_with_mdl ctx0 analyzed with
          | .error e => .error e
          | .ok ctx1 =>
            match registerAll map_data_type ctx1 remote_functions with
            | .error e => .error e
            | .ok ctx2 => .ok ⟨ctx2, analyzed, remote_functions⟩

/-! ### Registration lemmas -/

lemma mem_registerName_self (l : List String) (n : String) : n ∈ registerName l n := by
  unfold registerName
  split
  · assumption
  · exact List.mem_append_right _ (List.mem_singleton.mpr rfl)

lemma mem_registerName_of_mem (l : List String) (m n : String) (h : n ∈ l) :
    n ∈ registerName l m := by
  unfold registerName
  split
  · exact h
  · exact List.mem_append_left _ h

lemma register_ok_spec (map_data_type : String → Except String DataType)
    (ctx : Ctx) (f : RemoteFunction) (ctx' : Ctx)
    (h : register_remote_function map_data_type ctx f = .ok ctx') :
    (∀ k n, n ∈ ctx.kindList k → n ∈ ctx'.kindList k)
    ∧ f.name ∈ ctx'.kindList f.function_type := by
  unfold register_remote_function at h
  cases hf : f.function_type <;> rw [hf] at h <;>
    cases hm : map_data_type f.return_type <;> rw [hm] at h <;>
    cases h <;>
    refine ⟨?_, ?_⟩ <;>
    first
      | (intro k n hn
         cases k <;>
           simp only [Ctx.kindList] at hn ⊢ <;>
             first
               | exact mem_registerName_of_mem _ _ _ hn
               | exact hn)
      | (simp only [Ctx.kindList]; exact mem_registerName_self _ _)

lemma register_ok_of_map_ok (map_data_type : String → Except String DataType)
    (ctx : Ctx) (f : RemoteFunction) (d : DataType)
    (hd : map_data_type f.return_type = .ok d) :
    ∃ ctx', register_remote_function map_data_type ctx f = .ok ctx' := by
  unfold register_remote_function
  cases f.function_type <;> rw [hd] <;> exact ⟨_, rfl⟩

lemma register_err_of_map_err (map_data_type : String → Except String DataType)
    (ctx : Ctx) (f : RemoteFunction) (e : String)
    (he : map_data_type f.return_type = .error e) :
    register_remote_function map_data_type ctx f = .error e := by
  unfold register_remote_function
  cases f.function_type <;> rw [he]

lemma registerAll_preserves (map_data_type : String → Except String DataType)
    (fs : List RemoteFunction) :
    ∀ ctx ctx', registerAll map_data_type ctx fs = .ok ctx' →
    ∀ k n, n ∈ ctx.kindList k → n ∈ ctx'.kindList k := by
  induction fs with
  | nil =>
    intro ctx ctx' h k n hn
    cases h
    exact hn
  | cons g t ih =>
    intro ctx ctx' h k n hn
    unfold registerAll at h
    cases hg : register_remote_function map_data_type ctx g with
    | error e => rw [hg] at h; cases h
    | ok c1 =>
      rw [hg] at h
      exact ih c1 ctx' h k n ((register_ok_spec _ _ _ _ hg).1 k n hn)

lemma registerAll_ok_of_all_ok (map_data_type : String → Except String DataType)
    (fs : List RemoteFunction) :
    ∀ ctx, (∀ f ∈ fs, ∃ d, map_data_type f.return_type = .ok d) →
    ∃ ctx', registerAll map_data_type ctx fs = .ok ctx'
      ∧ ∀ f ∈ fs, ctx'.hasRegistered f := by
  induction fs with
  | nil => exact fun ctx _ => ⟨ctx, rfl, by simp⟩
  | cons g t ih =>
    intro ctx hall
    obtain ⟨d, hd⟩ := hall g (List.mem_cons_self g t)
    obtain ⟨c1, hc1⟩ := register_ok_of_map_ok map_data_type ctx g d hd
    obtain ⟨ctx', hfold, hreg⟩ :=
      ih c1 (fun f hf => hall f (List.mem_cons_of_mem g hf))
    refine ⟨ctx', ?_, ?_⟩
    · unfold registerAll
      rw [hc1]
      exact hfold
    · intro f hf
      rcases List.mem_cons.mp hf with hfg | hft
      · subst hfg
        exact registerAll_preserves map_data_type t c1 ctx' hfold _ _
          (register_ok_spec _ _ _ _ hc1).2
      · exact hreg f hft

lemma registerAll_err_of_some_err (map_data_type : String → Except String DataType)
    (fs : List RemoteFunction) :
    ∀ ctx, (∃ f ∈ fs, ∃ e, map_data_type f.return_type = .error e) →
    ∃ e, registerAll map_data_type ctx fs = .error e := by
  induction fs with
  | nil => rintro ctx ⟨f, hf, _⟩; cases hf
  | cons g t ih =>
    rintro ctx ⟨f, hf, e, he⟩
    rcases List.mem_cons.mp hf with hfg | hft
    · subst hfg
      refine ⟨e, ?_⟩
      unfold registerAll
      rw [register_err_of_map_err map_data_type ctx f e he]
    · cases hg : register_remote_function map_data_type ctx g with
      | error e' =>
        refine ⟨e', ?_⟩
        unfold registerAll
        rw [hg]
      | ok c1 =>
        obtain ⟨e', he'⟩ := ih c1 ⟨f, hft, e, he⟩
        refine ⟨e', ?_⟩
        unfold registerAll
        rw [hg]
        exact he'

/-! ### Claim theorems about construction and catalog loading -/

/-- C7: loading the remote-function catalog from a readable CSV source
keeps exactly the rows that deserialize (malformed rows are dropped
and loading continues); in particular a source with one well-formed
and one malformed row yields exactly the one well-formed entry, and an
absent path yields an empty catalog. -/
theorem read_remote_function_list_drops_bad_rows
    (openCsv : String → Except String (List (Except String PyRemoteFunction))) :
    (read_remote_function_list openCsv none = .ok [])
  ∧ (∀ path rows, openCsv path = .ok rows →
      read_remote_function_list openCsv (some path) =
        .ok (rows.filterMap Except.toOption))
  ∧ (∀ path g e, openCsv path = .ok [.ok g, .error e] →
      read_remote_function_list openCsv (some path) = .ok [g]) := by
  refine ⟨rfl, ?_, ?_⟩
  · intro path rows h
    simp [read_remote_function_list, h]
  · intro path g e h
    simp [read_remote_function_list, h, Except.toOption, List.filterMap]

def goodRow : PyRemoteFunction :=
  ⟨"scalar", "add_two", some "int", some ["x"], some ["int"], some "adds two"⟩

def openCsvMixed : String → Except String (List (Except String PyRemoteFunction)) :=
  fun _ => .ok [.ok goodRow, .error "missing field"]

/-- Witness for C7: one good row plus one malformed row give a catalog
of size one. -/
theorem read_remote_function_list_drops_bad_rows_witness :
    read_remote_function_list openCsvMixed (some "functions.csv") = .ok [goodRow] :=
  (read_remote_function_list_drops_bad_rows openCsvMixed).2.2
    "functions.csv" goodRow "missing field" rfl

/-- C10: when a remote-functions path is supplied but the file cannot
be opened, construction of the session context fails with that error —
for every manifest argument and every behaviour of the remaining
collaborators — instead of proceeding with an empty catalog. -/
theorem new_fails_on_unreadable_remote_functions_file
    (openCsv : String → Except String (List (Except String PyRemoteFunction)))
    (intoRemote : PyRemoteFunction → RemoteFunction)
    (to_manifest : String → Except String Manifest)
    (analyze : Manifest → Except String AnalyzedWrenMDL)
    (create_ctx_with_mdl : Ctx → AnalyzedWrenMDL → Except String Ctx)
    (map_data_type : String → Except String DataType)
    (ctx0 : Ctx) (defaultMdl : AnalyzedWrenMDL)
    (mdl_base64 : Option String) (path : String) (e : String)
    (hopen : openCsv path = .error e) :
    PySessionContext.new openCsv intoRemote to_manifest analyze
      create_ctx_with_mdl map_data_type ctx0 defaultMdl
      mdl_base64 (some path) = .error e := by
  simp [PySessionContext.new, read_remote_function_list, hopen]

def openCsvFail : String → Except String (List (Except String PyRemoteFunction)) :=
  fun _ => .error "No such file or directory (os error 2)"

def intoRemote0 : PyRemoteFunction → RemoteFunction := fun p =>
  ⟨.scalar, p.name, p.return_type.getD "", p.param_names, p.param_types, p.description⟩

def tmOk : String → Except String Manifest := fun _ => .ok ⟨7⟩

def analyzeOk : Manifest → Except String AnalyzedWrenMDL := fun _ => .ok ⟨1⟩

def createAny : Ctx → AnalyzedWrenMDL → Except String Ctx := fun c _ => .ok c

def mapOkInt : String → Except String DataType := fun _ => .ok ⟨"Int32"⟩

def emptyCtx : Ctx := ⟨[], [], []⟩

/-- Witness for C10: a missing file fails construction even though no
manifest was supplied. -/
theorem new_fails_on_unreadable_remote_functions_file_witness :
    PySessionContext.new openCsvFail intoRemote0 tmOk analyzeOk createAny mapOkInt
      emptyCtx ⟨0⟩ none (some "missing.csv") =
      .error "No such file or directory (os error 2)" :=
  new_fails_on_unreadable_remote_functions_file openCsvFail intoRemote0 tmOk
    analyzeOk createAny mapOkInt emptyCtx ⟨0⟩ none "missing.csv"
    "No such file or directory (os error 2)" rfl

/-- C8: when the manifest argument cannot be decoded, construction
fails with the decoder's error; the conclusion holds for every
`create_ctx_with_mdl` and every `map_data_type`, so the model-bound
engine-session construction and the remote-function registration are
provably never consulted, and no context value is produced. -/
theorem new_fails_before_session_on_bad_manifest
    (openCsv : String → Except String (List (Except String PyRemoteFunction)))
    (intoRemote : PyRemoteFunction → RemoteFunction)
    (to_manifest : String → Except String Manifest)
    (analyze : Manifest → Except String AnalyzedWrenMDL)
    (create_ctx_with_mdl : Ctx → AnalyzedWrenMDL → Except String Ctx)
    (map_data_type : String → Except String DataType)
    (ctx0 : Ctx) (defaultMdl : AnalyzedWrenMDL)
    (b64 : String) (path : Option String) (pyfs : List PyRemoteFunction)
    (e : String)
    (hread : read_remote_function_list openCsv path = .ok pyfs)
    (hdec : to_manifest b64 = .error e) :
    PySessionContext.new openCsv intoRemote to_manifest analyze
      create_ctx_with_mdl map_data_type ctx0 defaultMdl
      (some b64) path = .error e := by
  simp [PySessionContext.new, hread, hdec]

def tmFail : String → Except String Manifest := fun _ => .error "base64 decode failed"

def openCsvEmpty : String → Except String (List (Except String PyRemoteFunction)) :=
  fun _ => .ok []

/-- Witness for C8: an undecodable manifest string fails construction
with the decode error. -/
theorem new_fails_before_session_on_bad_manifest_witness :
    PySessionContext.new openCsvEmpty intoRemote0 tmFail analyzeOk createAny
      mapOkInt emptyCtx ⟨0⟩ (some "not-base64") none =
      .error "base64 decode failed" :=
  new_fails_before_session_on_bad_manifest openCsvEmpty intoRemote0 tmFail
    analyzeOk createAny mapOkInt emptyCtx ⟨0⟩ "not-base64" none []
    "base64 decode failed" rfl rfl

def badPyFn : PyRemoteFunction := ⟨"scalar", "bad_fn", some "weird_type", none, none, none⟩

def badRemoteFn : RemoteFunction := ⟨.scalar, "bad_fn", "weird_type", none, none, none⟩

def openCsvBad : String → Except String (List (Except String PyRemoteFunction)) :=
  fun _ => .ok [.ok badPyFn]

def intoRemoteBad : PyRemoteFunction → RemoteFunction := fun _ => badRemoteFn

def mapFailAll : String → Except String DataType :=
  fun _ => .error "unsupported return type"

/-- Counterexample to C3: with no manifest supplied, a remote function
whose declared return type cannot be mapped does NOT fail
construction — `new` returns successfully (taking the early return of
context.rs:84-90), with the function in the catalog but registered
nowhere in the engine session (all kind maps empty). This refutes
"regardless of whether an MDL manifest was supplied". -/
theorem new_no_manifest_skips_registration_cex :
    mapFailAll badRemoteFn.return_type = .error "unsupported return type"
  ∧ PySessionContext.new openCsvBad intoRemoteBad tmFail analyzeOk createAny
      mapFailAll emptyCtx ⟨0⟩ none (some "functions.csv") =
      .ok ⟨emptyCtx, ⟨0⟩, [badRemoteFn]⟩ := ⟨rfl, rfl⟩

/-- C3 amended: when a manifest IS supplied (and decoding, analysis
and engine-session creation succeed), every remote function loaded
from the catalog is registered into the engine session as a callable
of its declared kind, and a return-type mapping failure for any loaded
function fails construction of the whole context; with no manifest the
early return skips registration entirely (see the counterexample). -/
theorem new_with_manifest_registers_remote_functions
    (openCsv : String → Except String (List (Except String PyRemoteFunction)))
    (intoRemote : PyRemoteFunction → RemoteFunction)
    (to_manifest : String → Except String Manifest)
    (analyze : Manifest → Except String AnalyzedWrenMDL)
    (create_ctx_with_mdl : Ctx → AnalyzedWrenMDL → Except String Ctx)
    (map_data_type : String → Except String DataType)
    (ctx0 : Ctx) (defaultMdl : AnalyzedWrenMDL)
    (b64 : String) (path : Option String) (pyfs : List PyRemoteFunction)
    (manifest : Manifest) (analyzed : AnalyzedWrenMDL) (ctx1 : Ctx)
    (hread : read_remote_function_list openCsv path = .ok pyfs)
    (hman : to_manifest b64 = .ok manifest)
    (han : analyze manifest = .ok analyzed)
    (hcreate : create_ctx_with_mdl ctx0 analyzed = .ok ctx1) :
    ((∀ f ∈ pyfs.map intoRemote, ∃ d, map_data_type f.return_type = .ok d) →
      ∃ s, PySessionContext.new openCsv intoRemote to_manifest analyze
          create_ctx_with_mdl map_data_type ctx0 defaultMdl (some b64) path = .ok s
        ∧ s.remote_functions = pyfs.map intoRemote
        ∧ ∀ f ∈ pyfs.map intoRemote, s.ctx.hasRegistered f)
  ∧ ((∃ f ∈ pyfs.map intoRemote, ∃ e, map_data_type f.return_type = .error e) →
      ∃ e, PySessionContext.new openCsv intoRemote to_manifest analyze
          create_ctx_with_mdl map_data_type ctx0 defaultMdl (some b64) path =
          .error e) := by
  constructor
  · intro hall
    obtain ⟨ctx2, hfold, hreg⟩ :=
      registerAll_ok_of_all_ok map_data_type (pyfs.map intoRemote) ctx1 hall
    refine ⟨⟨ctx2, analyzed, pyfs.map intoRemote⟩, ?_, rfl, hreg⟩
    simp [PySessionContext.new, hread, hman, han, hcreate, hfold]
  · intro hsome
    obtain ⟨e, he⟩ :=
      registerAll_err_of_some_err map_data_type (pyfs.map intoRemote) ctx1 hsome
    refine ⟨e, ?_⟩
    simp [PySessionContext.new, hread, hman, han, hcreate, he]

def okPyFn : PyRemoteFunction := ⟨"scalar", "to_hex", some "string", none, none, none⟩

def okRemoteFn : RemoteFunction := ⟨.scalar, "to_hex", "string", none, none, none⟩

def openCsvOk : String → Except String (List (Except String PyRemoteFunction)) :=
  fun _ => .ok [.ok okPyFn]

def intoRemoteOk : PyRemoteFunction → RemoteFunction := fun _ => okRemoteFn

/-- Witness for the amended C3: with a manifest, a mappable scalar
remote function ends up registered as a scalar callable. -/
theorem new_with_manifest_registers_remote_functions_witness :
    ∃ s, PySessionContext.new openCsvOk intoRemoteOk tmOk analyzeOk createAny
        mapOkInt emptyCtx ⟨0⟩ (some "eyJ9") (some "functions.csv") = .ok s
      ∧ s.remote_functions = [okPyFn].map intoRemoteOk
      ∧ ∀ f ∈ [okPyFn].map intoRemoteOk, s.ctx.hasRegistered f :=
  (new_with_manifest_registers_remote_functions openCsvOk intoRemoteOk tmOk
    analyzeOk createAny mapOkInt emptyCtx ⟨0⟩ "eyJ9" (some "functions.csv")
    [okPyFn] ⟨7⟩ ⟨1⟩ emptyCtx rfl rfl rfl rfl).1
    (fun _ _ => ⟨⟨"Int32"⟩, rfl⟩)

/-! ### `get_available_functions` (context.rs:125-192)

The `HashMap<String, PyRemoteFunction>` builder is modelled as an
association list with the map's insertion semantics: collecting the
remote catalog inserts with replacement (last write wins), and the
`Entry::Vacant`/`Occupied` pattern of the engine-discovery passes
inserts only when the key is absent. `values()` is the list of bound
values (hash-map iteration order is arbitrary; every property proved
below is order-insensitive). -/

abbrev FnMap := List (String × PyRemoteFunction)

def mapKeys (m : FnMap) : List String := m.map Prod.fst

/-- `HashMap::insert` as performed by `collect` (an existing key is
overwritten, a new key is added). -/
def insertReplace (m : FnMap) (k : String) (v : PyRemoteFunction) : FnMap :=
  if k ∈ mapKeys m then m.map (fun p => if p.1 = k then (k, v) else p)
  else m ++ [(k, v)]

/-- The `match builder.entry(name)` pattern of context.rs:136-149:
occupied entries are kept, vacant entries are filled. -/
def entryOrInsert (m : FnMap) (k : String) (v : PyRemoteFunction) : FnMap :=
  if k ∈ mapKeys m then m else m ++ [(k, v)]

/-- The catalog entry built for a function discovered only in the
engine session (context.rs:139-147): its kind and name, with unknown
return type, parameter names, parameter types and description. -/
def unknownEngineFn (kind n : String) : PyRemoteFunction :=
  ⟨kind, n, none, none, none, none⟩

/-- One engine-discovery pass over the registered names of one kind. -/
def addEngineFns (kind : String) (names : List String) (m : FnMap) : FnMap :=
  names.foldl (fun acc n => entryOrInsert acc n (unknownEngineFn kind n)) m

/-- The builder seeded from the remote-function catalog
(context.rs:126-130). -/
def remoteMap (remote : List RemoteFunction) : FnMap :=
  remote.foldl (fun acc f => insertReplace acc f.name f.toPy) []

/-- The fully merged builder: remote catalog first, then the scalar,
aggregate and window discovery passes in the source's order. -/
def availableMap (s : PySessionContext) : FnMap :=
  addEngineFns "window" s.ctx.window_udfs
    (addEngineFns "aggregate" s.ctx.aggregate_udfs
      (addEngineFns "scalar" s.ctx.scalar_udfs
        (remoteMap s.remote_functions)))

/-- `PySessionContext::get_available_functions`. -/
def get_available_functions (s : PySessionContext) : List PyRemoteFunction :=
  (availableMap s).map Prod.snd

/-- The kind under which the scan order (scalar, then aggregate, then
window) first discovers a session-registered name. -/
def discoveredKind (c : Ctx) (n : String) : String :=
  if n ∈ c.scalar_udfs then "scalar"
  else if n ∈ c.aggregate_udfs then "aggregate"
  else "window"

/-! ### Merge lemmas -/

lemma addEngineFns_cons (kind : String) (h : String) (t : List String) (m : FnMap) :
    addEngineFns kind (h :: t) m =
      addEngineFns kind t (entryOrInsert m h (unknownEngineFn kind h)) := rfl

lemma mem_entryOrInsert_of_mem (m : FnMap) (k : String) (v : PyRemoteFunction)
    (p : String × PyRemoteFunction) (hp : p ∈ m) : p ∈ entryOrInsert m k v := by
  unfold entryOrInsert
  split
  · exact hp
  · exact List.mem_append_left _ hp

lemma mem_addEngineFns_of_mem (kind : String) (ns : List String) :
    ∀ m p, p ∈ m → p ∈ addEngineFns kind ns m := by
  induction ns with
  | nil => intro m p hp; exact hp
  | cons h t ih =>
    intro m p hp
    rw [addEngineFns_cons]
    exact ih _ p (mem_entryOrInsert_of_mem _ _ _ _ hp)

lemma mapKeys_entryOrInsert_subset (m : FnMap) (k : String) (v : PyRemoteFunction) :
    ∀ x ∈ mapKeys (entryOrInsert m k v), x ∈ mapKeys m ∨ x = k := by
  unfold entryOrInsert
  split
  · intro x hx; exact .inl hx
  · intro x hx
    unfold mapKeys at hx
    rw [List.map_append] at hx
    rcases List.mem_append.mp hx with h | h
    · exact .inl h
    · simp only [List.map_cons, List.map_nil, List.mem_singleton] at h
      exact .inr h

lemma mapKeys_addEngineFns_subset (kind : String) (ns : List String) :
    ∀ m x, x ∈ mapKeys (addEngineFns kind ns m) → x ∈ mapKeys m ∨ x ∈ ns := by
  induction ns with
  | nil => intro m x hx; exact .inl hx
  | cons h t ih =>
    intro m x hx
    rw [addEngineFns_cons] at hx
    rcases ih _ x hx with h1 | h1
    · rcases mapKeys_entryOrInsert_subset _ _ _ x h1 with h2 | h2
      · exact .inl h2
      · exact .inr (by rw [h2]; exact List.mem_cons_self h t)
    · exact .inr (List.mem_cons_of_mem h h1)

lemma nodup_mapKeys_entryOrInsert (m : FnMap) (k : String) (v : PyRemoteFunction)
    (h : (mapKeys m).Nodup) : (mapKeys (entryOrInsert m k v)).Nodup := by
  unfold entryOrInsert
  split
  · exact h
  next hk =>
    unfold mapKeys at *
    rw [List.map_append]
    refine List.Nodup.append h (List.nodup_singleton k) ?_
    intro x hx hx'
    simp only [List.map_cons, List.map_nil, List.mem_singleton] at hx'
    subst hx'
    exact hk hx

lemma nodup_mapKeys_addEngineFns (kind : String) (ns : List String) :
    ∀ m, (mapKeys m).Nodup → (mapKeys (addEngineFns kind ns m)).Nodup := by
  induction ns with
  | nil => intro m h; exact h
  | cons hd t ih =>
    intro m h
    rw [addEngineFns_cons]
    exact ih _ (nodup_mapKeys_entryOrInsert _ _ _ h)

lemma mem_addEngineFns_insert (kind : String) (ns : List String) :
    ∀ m n, n ∉ mapKeys m → n ∈ ns →
    (n, unknownEngineFn kind n) ∈ addEngineFns kind ns m := by
  induction ns with
  | nil => intro m n _ h; cases h
  | cons hd t ih =>
    intro m n hnm hn
    rw [addEngineFns_cons]
    by_cases hEq : hd = n
    · subst hEq
      have hins : (hd, unknownEngineFn kind hd) ∈
          entryOrInsert m hd (unknownEngineFn kind hd) := by
        unfold entryOrInsert
        rw [if_neg hnm]
        exact List.mem_append_right _ (List.mem_singleton.mpr rfl)
      exact mem_addEngineFns_of_mem kind t _ _ hins
    · have hn' : n ∈ t := by
        rcases List.mem_cons.mp hn with h | h
        · exact absurd h.symm hEq
        · exact h
      have hnm' : n ∉ mapKeys (entryOrInsert m hd (unknownEngineFn kind hd)) := by
        intro hx
        rcases mapKeys_entryOrInsert_subset _ _ _ n hx with h | h
        · exact hnm h
        · exact hEq h.symm
      exact ih _ n hnm' hn'

lemma foldl_insertReplace_eq (remote : List RemoteFunction) :
    ∀ init : FnMap,
    (remote.map (fun f => f.name)).Nodup →
    (∀ f ∈ remote, f.name ∉ mapKeys init) →
    remote.foldl (fun acc f => insertReplace acc f.name f.toPy) init =
      init ++ remote.map (fun f => (f.name, f.toPy)) := by
  induction remote with
  | nil => intro init _ _; simp
  | cons g t ih =>
    intro init hnd hdis
    have hnd' : (g.name ∉ t.map (fun f => f.name))
        ∧ (t.map (fun f => f.name)).Nodup :=
      List.nodup_cons.mp (by simpa using hnd)
    have hg : g.name ∉ mapKeys init := hdis g (List.mem_cons_self g t)
    have step : insertReplace init g.name g.toPy = init ++ [(g.name, g.toPy)] := by
      unfold insertReplace
      rw [if_neg hg]
    rw [List.foldl_cons, step,
      ih (init ++ [(g.name, g.toPy)]) hnd'.2 ?_]
    · simp
    · intro f hf
      unfold mapKeys
      rw [List.map_append]
      intro hmem
      rcases List.mem_append.mp hmem with h | h
      · exact hdis f (List.mem_cons_of_mem g hf) h
      · simp only [List.map_cons, List.map_nil, List.mem_singleton] at h
        exact hnd'.1 (by rw [← h]; exact List.mem_map_of_mem _ hf)

lemma remoteMap_eq (remote : List RemoteFunction)
    (hnd : (remote.map (fun f => f.name)).Nodup) :
    remoteMap remote = remote.map (fun f => (f.name, f.toPy)) := by
  have h := foldl_insertReplace_eq remote [] hnd (by intro f _ hx; cases hx)
  simpa [remoteMap] using h

lemma mapKeys_remoteMap (remote : List RemoteFunction)
    (hnd : (remote.map (fun f => f.name)).Nodup) :
    mapKeys (remoteMap remote) = remote.map (fun f => f.name) := by
  rw [mapKeys, remoteMap_eq remote hnd, List.map_map]
  rfl

def goodNames (m : FnMap) : Prop := ∀ p ∈ m, (Prod.snd p).name = p.1

lemma goodNames_entryOrInsert (m : FnMap) (k : String) (v : PyRemoteFunction)
    (hv : v.name = k) (h : goodNames m) : goodNames (entryOrInsert m k v) := by
  unfold entryOrInsert
  split
  · exact h
  · intro p hp
    rcases List.mem_append.mp hp with h1 | h1
    · exact h p h1
    · rw [List.mem_singleton] at h1
      subst h1
      exact hv

lemma goodNames_addEngineFns (kind : String) (ns : List String) :
    ∀ m, goodNames m → goodNames (addEngineFns kind ns m) := by
  induction ns with
  | nil => exact fun _ h => h
  | cons hd t ih =>
    intro m h
    rw [addEngineFns_cons]
    exact ih _ (goodNames_entryOrInsert _ _ _ rfl h)

lemma goodNames_remoteMap (remote : List RemoteFunction)
    (hnd : (remote.map (fun f => f.name)).Nodup) :
    goodNames (remoteMap remote) := by
  rw [remoteMap_eq remote hnd]
  intro p hp
  rcases List.mem_map.mp hp with ⟨f, _, rfl⟩
  rfl

lemma map_name_get_available (s : PySessionContext)
    (h : goodNames (availableMap s)) :
    (get_available_functions s).map (fun e => e.name) = mapKeys (availableMap s) := by
  unfold get_available_functions mapKeys
  rw [List.map_map]
  exact List.map_congr_left (fun p hp => h p hp)

/-! ### Claim theorem for the catalog merge -/

/-- C4: assuming the remote catalog has pairwise-distinct names (it is
name-keyed), `get_available_functions` never returns two entries with
the same name; every remote-catalog entry appears in the result and is
the unique entry of its name (its return type, parameter names,
parameter types and description all taken from the catalog entry); and
every name registered in the engine session but absent from the remote
catalog contributes exactly one entry, whose kind is the one the scan
order discovers and whose optional fields are all unknown. -/
theorem get_available_functions_merge_policy (s : PySessionContext)
    (hnd : (s.remote_functions.map (fun f => f.name)).Nodup) :
    (((get_available_functions s).map (fun e => e.name)).Nodup)
  ∧ (∀ f ∈ s.remote_functions, f.toPy ∈ get_available_functions s
      ∧ ∀ e ∈ get_available_functions s, e.name = f.name → e = f.toPy)
  ∧ (∀ n, n ∉ s.remote_functions.map (fun f => f.name) →
      n ∈ s.ctx.scalar_udfs ++ s.ctx.aggregate_udfs ++ s.ctx.window_udfs →
      unknownEngineFn (discoveredKind s.ctx n) n ∈ get_available_functions s
      ∧ ∀ e ∈ get_available_functions s, e.name = n →
          e = unknownEngineFn (discoveredKind s.ctx n) n) := by
  have hkeys0 : mapKeys (remoteMap s.remote_functions) =
      s.remote_functions.map (fun f => f.name) := mapKeys_remoteMap _ hnd
  have hnd3 : (mapKeys (availableMap s)).Nodup := by
    unfold availableMap
    apply nodup_mapKeys_addEngineFns
    apply nodup_mapKeys_addEngineFns
    apply nodup_mapKeys_addEngineFns
    rw [hkeys0]
    exact hnd
  have hgood : goodNames (availableMap s) := by
    unfold availableMap
    apply goodNames_addEngineFns
    apply goodNames_addEngineFns
    apply goodNames_addEngineFns
    exact goodNames_remoteMap _ hnd
  have houtnd : ((get_available_functions s).map (fun e => e.name)).Nodup := by
    rw [map_name_get_available s hgood]
    exact hnd3
  have huniq : ∀ v ∈ get_available_functions s,
      ∀ e ∈ get_available_functions s, e.name = v.name → e = v := by
    intro v hv e he hname
    exact List.inj_on_of_nodup_map houtnd he hv hname
  refine ⟨houtnd, ?_, ?_⟩
  · intro f hf
    have hmem0 : (f.name, f.toPy) ∈ remoteMap s.remote_functions := by
      rw [remoteMap_eq _ hnd]
      exact List.mem_map_of_mem _ hf
    have hmem3 : (f.name, f.toPy) ∈ availableMap s :=
      mem_addEngineFns_of_mem _ _ _ _
        (mem_addEngineFns_of_mem _ _ _ _
          (mem_addEngineFns_of_mem _ _ _ _ hmem0))
    have hout : f.toPy ∈ get_available_functions s :=
      List.mem_map_of_mem Prod.snd hmem3
    exact ⟨hout, huniq f.toPy hout⟩
  · intro n hnr hneng
    have hn0 : n ∉ mapKeys (remoteMap s.remote_functions) := by
      rw [hkeys0]
      exact hnr
    have hmem3 : (n, unknownEngineFn (discoveredKind s.ctx n) n) ∈ availableMap s := by
      by_cases hs : n ∈ s.ctx.scalar_udfs
      · have hdk : discoveredKind s.ctx n = "scalar" := by
          simp [discoveredKind, hs]
        rw [hdk]
        exact mem_addEngineFns_of_mem _ _ _ _
          (mem_addEngineFns_of_mem _ _ _ _
            (mem_addEngineFns_insert _ _ _ _ hn0 hs))
      · by_cases ha : n ∈ s.ctx.aggregate_udfs
        · have hdk : discoveredKind s.ctx n = "aggregate" := by
            simp [discoveredKind, hs, ha]
          rw [hdk]
          have hn1 : n ∉ mapKeys (addEngineFns "scalar" s.ctx.scalar_udfs
              (remoteMap s.remote_functions)) := by
            intro hx
            rcases mapKeys_addEngineFns_subset _ _ _ _ hx with h | h
            · exact hn0 h
            · exact hs h
          exact mem_addEngineFns_of_mem _ _ _ _
            (mem_addEngineFns_insert _ _ _ _ hn1 ha)
        · have hw : n ∈ s.ctx.window_udfs := by
            rcases List.mem_append.mp hneng with h | h
            · rcases List.mem_append.mp h with h' | h'
              · exact absurd h' hs
              · exact absurd h' ha
            · exact h
          have hdk : discoveredKind s.ctx n = "window" := by
            simp [discoveredKind, hs, ha]
          rw [hdk]
          have hn2 : n ∉ mapKeys (addEngineFns "aggregate" s.ctx.aggregate_udfs
              (addEngineFns "scalar" s.ctx.scalar_udfs
                (remoteMap s.remote_functions))) := by
            intro hx
            rcases mapKeys_addEngineFns_subset _ _ _ _ hx with h | h
            · rcases mapKeys_addEngineFns_subset _ _ _ _ h with h' | h'
              · exact hn0 h'
              · exact hs h'
            · exact ha h
          exact mem_addEngineFns_insert _ _ _ _ hn2 hw
    have hout : unknownEngineFn (discoveredKind s.ctx n) n ∈ get_available_functions s :=
      List.mem_map_of_mem Prod.snd hmem3
    exact ⟨hout, huniq _ hout⟩

def sEx : PySessionContext :=
  ⟨⟨["to_hex", "abs"], [], ["lead"]⟩, ⟨0⟩, [okRemoteFn]⟩

/-- Witness for C4: in a session whose engine registers scalar
functions to_hex and abs plus window function lead, with to_hex also
in the remote catalog, the engine-only name abs gets exactly one
all-unknown scalar entry. -/
theorem get_available_functions_merge_policy_witness :
    unknownEngineFn (discoveredKind sEx.ctx "abs") "abs" ∈ get_available_functions sEx
  ∧ ∀ e ∈ get_available_functions sEx, e.name = "abs" →
      e = unknownEngineFn (discoveredKind sEx.ctx "abs") "abs" :=
  (get_available_functions_merge_policy sEx (by decide)).2.2 "abs"
    (by decide) (by decide)

end Wren
